import Mathlib

/-!
# Verification of the agentesai dispatch-and-synthesis core

A shallow embedding of the request-dispatch core of the agentesai
repository (src/agentesai/agent/): the request classifier
(coordinador.py), the capability invoker (ejecutor.py), the code
synthesizer (generador.py), the capability catalog (registry.py) and the
orchestrator-level reset (sistema.py), together with proofs and
refutations of the specification claims about them.

Conventions of the embedding:
* Python strings are Lean `String`s; Python `pat in s` is `pyIn pat s`
  (substring test), `s.lower()` is `lowerStr s` (ASCII letters plus the
  accented Spanish letters that actually occur in this program),
  `s.split()` is `splitWS`.
* Python dicts are insertion-ordered association lists
  (`List (String × β)`) with `dGet`/`dInsert`/`dRemove`/`dKeys`
  mirroring lookup, `d[k] = v`, `del d[k]` and `list(d.keys())`.
* Calls into the external world (the Gemini provider, `exec`, the
  filesystem and wall-clock timestamps) are passed in as explicit
  oracle values, so every program path is a total function of the
  request plus the oracles.
-/

set_option maxRecDepth 10000

namespace AgentesAI

/-! ## String utilities: Python `lower`, `in` and `split()` -/

/-- Python `str.lower`, restricted to the character repertoire this
program manipulates: ASCII `A`-`Z` plus the upper-case accented Spanish
letters appearing in the trigger tables.  All other characters are
returned unchanged. -/
def pyLowerChar (c : Char) : Char :=
  if 'A' ≤ c ∧ c ≤ 'Z' then Char.ofNat (c.toNat + 32)
  else if c = 'Á' then 'á'
  else if c = 'É' then 'é'
  else if c = 'Í' then 'í'
  else if c = 'Ó' then 'ó'
  else if c = 'Ú' then 'ú'
  else if c = 'Ñ' then 'ñ'
  else if c = 'Ü' then 'ü'
  else c

/-- `consulta.lower()` on whole strings. -/
def lowerStr (s : String) : String :=
  ⟨s.toList.map pyLowerChar⟩

/-- Substring test on character lists: does `pat` occur contiguously in
`s`?  Implemented as: some suffix of `s` has `pat` as a prefix. -/
def inList (pat s : List Char) : Bool :=
  s.tails.any fun t => pat.isPrefixOf t

/-- Python `pat in s` on strings. -/
def pyIn (pat s : String) : Bool :=
  inList pat.toList s.toList

theorem inList_iff {pat s : List Char} : inList pat s = true ↔ pat <:+: s := by
  constructor
  · intro h
    rcases List.any_eq_true.mp h with ⟨t, ht, hpre⟩
    exact List.infix_iff_prefix_suffix.mpr
      ⟨t, List.isPrefixOf_iff_prefix.mp hpre, (List.mem_tails _ _).mp ht⟩
  · intro h
    rcases List.infix_iff_prefix_suffix.mp h with ⟨t, hpre, hsuf⟩
    exact List.any_eq_true.mpr
      ⟨t, (List.mem_tails _ _).mpr hsuf, List.isPrefixOf_iff_prefix.mpr hpre⟩

theorem pyIn_iff {pat s : String} : pyIn pat s = true ↔ pat.toList <:+: s.toList :=
  inList_iff

/-- Transitivity of the substring test through a longer pattern: if
`mid` occurs in `s` and `pat` occurs in `mid`, then `pat` occurs in `s`. -/
theorem pyIn_of_pyIn_of_pyIn {pat mid s : String}
    (h₁ : pyIn pat mid = true) (h₂ : pyIn mid s = true) : pyIn pat s = true :=
  pyIn_iff.mpr ((pyIn_iff.mp h₁).trans (pyIn_iff.mp h₂))

/-- Whitespace in the sense of Python `str.split()` (the ASCII cases). -/
def wsChar (c : Char) : Bool :=
  c = ' ' ∨ c = '\t' ∨ c = '\n' ∨ c = '\x0d' ∨ c = '\x0b' ∨ c = '\x0c'

/-- Helper for `splitWS`: accumulates the current word (reversed). -/
def splitWSAux : List Char → List Char → List (List Char)
  | [], acc => if acc.isEmpty then [] else [acc.reverse]
  | c :: rest, acc =>
    if wsChar c then
      if acc.isEmpty then splitWSAux rest [] else acc.reverse :: splitWSAux rest []
    else
      splitWSAux rest (c :: acc)

/-- Python `s.split()` (no argument): splits on runs of whitespace and
never produces empty words. -/
def splitWS (s : List Char) : List (List Char) :=
  splitWSAux s []

/-! ## Association lists as insertion-ordered Python dicts -/

variable {β : Type}

/-- `d.get(k)` / `d[k]`: the value at the first (unique) matching key. -/
def dGet (d : List (String × β)) (k : String) : Option β :=
  (d.find? fun e => e.1 == k).map (·.2)

/-- `k in d`. -/
def dHas (d : List (String × β)) (k : String) : Bool :=
  (dGet d k).isSome

/-- `d[k] = v`: updates the entry in place when the key is present,
otherwise appends it, preserving insertion order. -/
def dInsert (d : List (String × β)) (k : String) (v : β) : List (String × β) :=
  match d with
  | [] => [(k, v)]
  | e :: t => if e.1 == k then (k, v) :: t else e :: dInsert t k v

/-- `del d[k]` (keys are unique, so removing the first match suffices). -/
def dRemove (d : List (String × β)) (k : String) : List (String × β) :=
  match d with
  | [] => []
  | e :: t => if e.1 == k then t else e :: dRemove t k

/-- `list(d.keys())` in insertion order. -/
def dKeys (d : List (String × β)) : List String :=
  d.map (·.1)

theorem dGet_dInsert_self (d : List (String × β)) (k : String) (v : β) :
    dGet (dInsert d k v) k = some v := by
  induction d with
  | nil => simp [dGet, dInsert]
  | cons e t ih =>
    by_cases h : e.1 == k
    · simp [dInsert, h, dGet]
    · simp only [dInsert, h, Bool.false_eq_true, if_false]
      simpa [dGet, List.find?, h] using ih

theorem dGet_dInsert_ne (d : List (String × β)) {k k' : String} (v : β)
    (h : k' ≠ k) : dGet (dInsert d k v) k' = dGet d k' := by
  have hkk : (k == k') = false := by
    simp only [beq_eq_false_iff_ne, ne_eq]
    exact fun hh => h hh.symm
  induction d with
  | nil => simp [dGet, dInsert, List.find?, hkk]
  | cons e t ih =>
    by_cases he : e.1 == k
    · have : ¬ (k == k') := by simpa [beq_iff_eq] using fun hh => h hh.symm
      simp [dInsert, he, dGet, List.find?, this, beq_iff_eq.mp he]
    · simp only [dInsert, he, Bool.false_eq_true, if_false]
      by_cases he' : e.1 == k'
      · simp [dGet, List.find?, he']
      · simpa [dGet, List.find?, he'] using ih

theorem dGet_dRemove_ne (d : List (String × β)) {k k' : String}
    (h : k' ≠ k) : dGet (dRemove d k) k' = dGet d k' := by
  induction d with
  | nil => simp [dRemove]
  | cons e t ih =>
    by_cases he : e.1 == k
    · have : ¬ (e.1 == k') := by
        simp only [beq_iff_eq] at he ⊢
        exact fun hh => h (hh ▸ he ▸ rfl)
      simp [dRemove, he, dGet, List.find?, this]
    · simp only [dRemove, he, Bool.false_eq_true, if_false]
      by_cases he' : e.1 == k'
      · simp [dGet, List.find?, he']
      · simpa [dGet, List.find?, he'] using ih

theorem dGet_dRemove_self (d : List (String × β)) (k : String)
    (hnd : (dKeys d).Nodup) : dGet (dRemove d k) k = none := by
  induction d with
  | nil => simp [dRemove, dGet]
  | cons e t ih =>
    simp only [dKeys, List.map_cons, List.nodup_cons] at hnd
    by_cases he : e.1 == k
    · have : e.1 = k := beq_iff_eq.mp he
      simp only [dRemove, he, if_true]
      rw [show k = e.1 from this.symm]
      simp only [dGet]
      cases hfind : t.find? fun x => x.1 == e.1 with
      | none => simp
      | some p =>
        have hmem := List.find?_some hfind
        have hpm : p ∈ t := List.mem_of_find?_eq_some hfind
        have : p.1 ∈ t.map (·.1) := List.mem_map_of_mem _ hpm
        rw [beq_iff_eq.mp hmem] at this
        exact absurd this hnd.1
    · simp only [dRemove, he, Bool.false_eq_true, if_false, dGet, List.find?, he]
      exact ih hnd.2

theorem dKeys_dInsert (d : List (String × β)) (k : String) (v : β) :
    dKeys (dInsert d k v) = if dHas d k then dKeys d else dKeys d ++ [k] := by
  induction d with
  | nil => simp [dInsert, dKeys, dHas, dGet]
  | cons e t ih =>
    by_cases he : e.1 == k
    · simp [dInsert, he, dKeys, dHas, dGet, List.find?, beq_iff_eq.mp he]
    · simp only [dInsert, he, Bool.false_eq_true, if_false, dKeys, List.map_cons]
      have : dHas (e :: t) k = dHas t k := by
        simp [dHas, dGet, List.find?, he]
      rw [this]
      by_cases ht : dHas t k
      · simp only [ht, if_true]
        simpa [dKeys, ht] using congrArg (e.1 :: ·) (by simpa [dKeys, ht] using ih)
      · simp only [ht, Bool.false_eq_true, if_false]
        simpa [dKeys, ht] using congrArg (e.1 :: ·) (by simpa [dKeys, ht] using ih)

theorem dKeys_dRemove_sublist (d : List (String × β)) (k : String) :
    List.Sublist (dKeys (dRemove d k)) (dKeys d) := by
  induction d with
  | nil => simp [dRemove]
  | cons e t ih =>
    by_cases he : e.1 == k
    · simp only [dRemove, he, if_true, dKeys, List.map_cons]
      exact List.Sublist.cons _ (List.Sublist.refl _)
    · simp only [dRemove, he, Bool.false_eq_true, if_false, dKeys, List.map_cons]
      exact List.Sublist.cons₂ _ ih

theorem nodup_dKeys_dInsert (d : List (String × β)) (k : String) (v : β)
    (hnd : (dKeys d).Nodup) : (dKeys (dInsert d k v)).Nodup := by
  rw [dKeys_dInsert]
  by_cases h : dHas d k
  · simpa [h] using hnd
  · simp only [h, Bool.false_eq_true, if_false]
    refine List.Nodup.append hnd (List.nodup_singleton _) ?_
    intro a ha hb
    rw [List.mem_singleton] at hb
    subst hb
    rcases List.mem_map.mp ha with ⟨e, he, hk⟩
    have : dHas d a = true := by
      simp only [dHas, dGet]
      cases hf : d.find? fun x => x.1 == a with
      | none =>
        have := List.find?_eq_none.mp hf e he
        simp [hk] at this
      | some p => simp
    exact h this

theorem nodup_dKeys_dRemove (d : List (String × β)) (k : String)
    (hnd : (dKeys d).Nodup) : (dKeys (dRemove d k)).Nodup :=
  List.Nodup.sublist (dKeys_dRemove_sublist d k) hnd

theorem mem_dKeys_of_dGet_some {d : List (String × β)} {k : String} {v : β}
    (h : dGet d k = some v) : k ∈ dKeys d := by
  simp only [dGet, Option.map_eq_some'] at h
  rcases h with ⟨e, he, _⟩
  have hm := List.mem_of_find?_eq_some he
  have hk := List.find?_some he
  simp only [beq_iff_eq] at hk
  exact hk ▸ List.mem_map_of_mem _ hm

theorem dGet_eq_none_of_not_mem {d : List (String × β)} {k : String}
    (h : k ∉ dKeys d) : dGet d k = none := by
  cases hg : dGet d k with
  | none => rfl
  | some v => exact absurd (mem_dKeys_of_dGet_some hg) h

/-! ## Request Classifier (`AgenteCoordinador`, coordinador.py)

`analizar_consulta` routes a request either to the Invoker (an existing
capability) or to the Synthesizer.  Pattern tables are transcribed
verbatim from `_puede_responder_directamente` and
`_identificar_herramienta`. -/

/-- `patrones_conocidos` from `_puede_responder_directamente`
(coordinador.py, lines 106-132). -/
def patrones_conocidos : List String :=
  ["quién soy", "quien soy", "who am i",
   "qué grupos tengo", "que grupos tengo", "what groups",
   "reset", "reseteo", "reiniciar",
   "listar usuarios", "lista usuarios", "todos los usuarios", "list users", "all users",
   "buscar usuarios", "usuarios por departamento", "search users", "users by department",
   "estructura ldap", "estructura del directorio", "ldap structure", "directory structure",
   "rootdse", "root dse", "rootdse info", "root dse info",
   "análisis rootdse", "analisis rootdse", "rootdse analysis",
   "información servidor", "server info", "ldap info", "ldap server info",
   "enumeración anónima", "enumeracion anonima", "anonymous enum",
   "bind anónimo", "bind anonimo", "anonymous bind",
   "usuarios anónimos", "usuarios anonimos", "anonymous users",
   "enumerar usuarios", "enumerar grupos", "list users groups",
   "starttls", "start tls", "tls test", "test tls",
   "test seguridad", "seguridad tls", "tls security",
   "downgrade tls", "tls downgrade", "handshake tls"]

/-- `AgenteCoordinador._puede_responder_directamente`. -/
def puede_responder_directamente (consulta : String) : Bool :=
  patrones_conocidos.any fun patron => pyIn patron (lowerStr consulta)

/-- Branch phrase lists of `_identificar_herramienta`, in source order. -/
def frases_user_info : List String :=
  ["quién soy", "quien soy", "who am i"]

def frases_groups : List String :=
  ["qué grupos", "que grupos", "what groups"]

def frases_reset : List String :=
  ["reset", "reseteo", "reiniciar"]

def frases_list_users : List String :=
  ["listar usuarios", "lista usuarios", "todos los usuarios", "list users", "all users"]

def frases_search_users : List String :=
  ["buscar usuarios", "usuarios por departamento", "search users", "users by department"]

def frases_structure : List String :=
  ["estructura ldap", "estructura del directorio", "ldap structure", "directory structure"]

def frases_rootdse : List String :=
  ["rootdse", "root dse", "rootdse info", "root dse info", "análisis rootdse",
   "analisis rootdse", "rootdse analysis", "información servidor", "server info",
   "ldap info", "ldap server info"]

def frases_anon : List String :=
  ["enumeración anónima", "enumeracion anonima", "anonymous enum", "bind anónimo",
   "bind anonimo", "anonymous bind", "usuarios anónimos", "usuarios anonimos",
   "anonymous users", "enumerar usuarios", "enumerar grupos", "list users groups"]

def frases_starttls : List String :=
  ["starttls", "start tls", "tls test", "test tls", "test seguridad", "seguridad tls",
   "tls security", "downgrade tls", "tls downgrade", "handshake tls"]

/-- Does any phrase of `frases` occur in the (already lowered) request? -/
def algunaFrase (frases : List String) (lc : String) : Bool :=
  frases.any fun palabra => pyIn palabra lc

/-- `AgenteCoordinador._identificar_herramienta`: the first matching
branch (in source order) names the capability; no match yields `none`. -/
def identificar_herramienta (consulta : String) : Option String :=
  if algunaFrase frases_user_info (lowerStr consulta) then some "get_current_user_info"
  else if algunaFrase frases_groups (lowerStr consulta) then some "get_user_groups"
  else if algunaFrase frases_reset (lowerStr consulta) then some "reset_system"
  else if algunaFrase frases_list_users (lowerStr consulta) then some "list_all_users"
  else if algunaFrase frases_search_users (lowerStr consulta) then some "search_users_by_department"
  else if algunaFrase frases_structure (lowerStr consulta) then some "analyze_ldap_structure"
  else if algunaFrase frases_rootdse (lowerStr consulta) then some "tool_rootdse_info"
  else if algunaFrase frases_anon (lowerStr consulta) then some "tool_anonymous_enum"
  else if algunaFrase frases_starttls (lowerStr consulta) then some "tool_starttls_test"
  else none

/-- `AgenteCoordinador._determinar_tipo_herramienta`. -/
def determinar_tipo_herramienta (consulta : String) : String :=
  if algunaFrase ["grupos", "groups"] (lowerStr consulta) then "ldap_query"
  else if algunaFrase ["usuarios", "users"] (lowerStr consulta) then "ldap_query"
  else if algunaFrase ["departamento", "department"] (lowerStr consulta) then "ldap_query"
  else "generic_query"

/-- The classification decision returned by `analizar_consulta`
(the `accion`/`agente` fields are determined by the constructor; the
original request is carried in both branches). -/
inductive Decision where
  | ejecutar (herramienta : Option String) (consulta : String)
  | generar (tipo : String) (consulta : String)
deriving DecidableEq

/-- `AgenteCoordinador.analizar_consulta`. -/
def analizar_consulta (consulta : String) : Decision :=
  if puede_responder_directamente consulta then
    .ejecutar (identificar_herramienta consulta) consulta
  else
    .generar (determinar_tipo_herramienta consulta) consulta

/-! ## MD5 (`hashlib.md5`, used by `_generar_nombre_herramienta`)

A direct implementation of RFC 1321 over `Nat`, all word arithmetic
taken modulo `2^32`.  Only determinism and the digest length matter to
the claims, but the algorithm is implemented in full so that the
embedded name derivation is the source's name derivation. -/

/-- UTF-8 encoding of one character (`str.encode()`). -/
def utf8Bytes (c : Char) : List Nat :=
  let n := c.toNat
  if n < 128 then [n]
  else if n < 2048 then [192 + n / 64, 128 + n % 64]
  else if n < 65536 then [224 + n / 4096, 128 + (n / 64) % 64, 128 + n % 64]
  else [240 + n / 262144, 128 + (n / 4096) % 64, 128 + (n / 64) % 64, 128 + n % 64]

/-- UTF-8 encoding of a string as a byte list. -/
def encodeUtf8 (s : String) : List Nat :=
  (s.toList.map utf8Bytes).flatten

/-- Reduction modulo the 32-bit word size. -/
def w32 (n : Nat) : Nat := n % 4294967296

/-- 32-bit left rotation. -/
def rotl32 (x s : Nat) : Nat :=
  w32 (x * 2 ^ s) + x / 2 ^ (32 - s)

/-- The 64 MD5 sine-derived constants `K[i] = ⌊|sin(i+1)|·2^32⌋`. -/
def md5K : List Nat :=
  [3614090360, 3905402710, 606105819, 3250441966, 4118548399, 1200080426, 2821735955,
   4249261313, 1770035416, 2336552879, 4294925233, 2304563134, 1804603682, 4254626195,
   2792965006, 1236535329, 4129170786, 3225465664, 643717713, 3921069994, 3593408605,
   38016083, 3634488961, 3889429448, 568446438, 3275163606, 4107603335, 1163531501,
   2850285829, 4243563512, 1735328473, 2368359562, 4294588738, 2272392833, 1839030562,
   4259657740, 2763975236, 1272893353, 4139469664, 3200236656, 681279174, 3936430074,
   3572445317, 76029189, 3654602809, 3873151461, 530742520, 3299628645, 4096336452,
   1126891415, 2878612391, 4237533241, 1700485571, 2399980690, 4293915773, 2240044497,
   1873313359, 4264355552, 2734768916, 1309151649, 4149444226, 3174756917, 718787259,
   3951481745]

/-- The per-round left-rotation amounts. -/
def md5S : List Nat :=
  [7, 12, 17, 22, 7, 12, 17, 22, 7, 12, 17, 22, 7, 12, 17, 22,
   5, 9, 14, 20, 5, 9, 14, 20, 5, 9, 14, 20, 5, 9, 14, 20,
   4, 11, 16, 23, 4, 11, 16, 23, 4, 11, 16, 23, 4, 11, 16, 23,
   6, 10, 15, 21, 6, 10, 15, 21, 6, 10, 15, 21, 6, 10, 15, 21]

/-- MD5 padding: a `0x80` byte, zeros to 56 mod 64, then the bit length
as a 64-bit little-endian quantity. -/
def md5Pad (msg : List Nat) : List Nat :=
  let len := msg.length
  let padLen := (55 + 64 - len % 64) % 64 + 1
  let bitLen := (len * 8) % 18446744073709551616
  msg ++ 128 :: List.replicate (padLen - 1) 0 ++
    (List.range 8).map fun i => bitLen / 2 ^ (8 * i) % 256

/-- Little-endian 32-bit word from four bytes. -/
def leWord (b0 b1 b2 b3 : Nat) : Nat :=
  b0 + b1 * 256 + b2 * 65536 + b3 * 16777216

/-- Split a 64-byte chunk into its 16 little-endian words. -/
def md5Words : List Nat → List Nat
  | b0 :: b1 :: b2 :: b3 :: rest => leWord b0 b1 b2 b3 :: md5Words rest
  | _ => []

/-- Split the padded message into 64-byte chunks. -/
def md5Chunks (msg : List Nat) : List (List Nat) :=
  if h : msg.length < 64 then []
  else
    have : msg.length - 64 < msg.length := by omega
    msg.take 64 :: md5Chunks (msg.drop 64)
termination_by msg.length
decreasing_by simpa using this

/-- One MD5 round function application: the nonlinear mix for round `i`
together with the message-word index. -/
def md5Mix (i b c d : Nat) : Nat × Nat :=
  let notB := 4294967295 - b
  let notD := 4294967295 - d
  if i < 16 then ((b &&& c) ||| (notB &&& d), i)
  else if i < 32 then ((d &&& b) ||| (notD &&& c), (5 * i + 1) % 16)
  else if i < 48 then (b ^^^ c ^^^ d, (3 * i + 5) % 16)
  else (c ^^^ (b ||| notD), (7 * i) % 16)

/-- The 64 rounds for one chunk, starting from state `(a, b, c, d)`. -/
def md5Rounds (m : List Nat) (st : Nat × Nat × Nat × Nat) : Nat × Nat × Nat × Nat :=
  (List.range 64).foldl
    (fun st i =>
      let (a, b, c, d) := st
      let (f, g) := md5Mix i b c d
      let f' := w32 (f + a + md5K.getD i 0 + m.getD g 0)
      (d, w32 (b + rotl32 f' (md5S.getD i 0)), b, c))
    st

/-- Process one chunk: run the rounds and add the result to the state. -/
def md5Chunk (st : Nat × Nat × Nat × Nat) (chunk : List Nat) : Nat × Nat × Nat × Nat :=
  let (a0, b0, c0, d0) := st
  let (a, b, c, d) := md5Rounds (md5Words chunk) st
  (w32 (a0 + a), w32 (b0 + b), w32 (c0 + c), w32 (d0 + d))

/-- A 32-bit word as four little-endian bytes. -/
def leBytes (w : Nat) : List Nat :=
  [w % 256, w / 256 % 256, w / 65536 % 256, w / 16777216 % 256]

/-- The 16-byte MD5 digest of a byte string. -/
def md5Digest (msg : List Nat) : List Nat :=
  let (a, b, c, d) :=
    (md5Chunks (md5Pad msg)).foldl md5Chunk (1732584193, 4023233417, 2562383102, 271733878)
  leBytes a ++ leBytes b ++ leBytes c ++ leBytes d

/-- Lower-case hexadecimal digit. -/
def hexDigit (n : Nat) : Char :=
  if n < 10 then Char.ofNat (48 + n) else Char.ofNat (87 + n)

/-- `hexdigest()`: the digest bytes in lower-case hex. -/
def md5Hex (msg : List Nat) : List Char :=
  (md5Digest msg).flatMap fun b => [hexDigit (b / 16), hexDigit (b % 16)]

/-! ## Code Synthesizer (`AgenteGenerador`, generador.py)

The Gemini provider call and the dynamic `exec` are the two external
effects; both enter as oracle values (`ProveedorIA`, `EntornoExec`), so
`generar_herramienta` is quantified over every possible provider and
compilation behavior. -/

/-- `AgenteGenerador._generar_nombre_herramienta`: `get_` + the first
three whitespace-separated words of the lowered request joined by `_` +
the first 8 hex characters of the request's MD5. -/
def generar_nombre_herramienta (consulta : String) : String :=
  let hashConsulta := String.mk ((md5Hex (encodeUtf8 consulta)).take 8)
  let palabras := ((splitWS (lowerStr consulta).toList).take 3).map fun w => String.mk w
  let nombreBase := String.intercalate "_" palabras
  "get_" ++ nombreBase ++ "_" ++ hashConsulta

/-- Python `str.strip()` (whitespace from both ends). -/
def pyStrip (s : List Char) : List Char :=
  ((s.dropWhile wsChar).reverse.dropWhile wsChar).reverse

/-- Index of the first occurrence of `pat` in `s`, if any. -/
def subIdx (pat s : List Char) : Option Nat :=
  (List.range (s.length + 1)).find? fun i => pat.isPrefixOf (s.drop i)

/-- Regex `\w`. -/
def wordChar (c : Char) : Bool :=
  c.isAlphanum || c = '_'

/-- First extraction pattern of `_extraer_codigo_python`:
regex PATTERN-BACKTICK-python `\s*(.*?)\s*` PATTERN-BACKTICK with
re.DOTALL, whose effect is: the whitespace-trimmed text between the
first fenced-python opening and the first closing fence after it. -/
def extraePatronPy (t : List Char) : Option (List Char) :=
  match subIdx "```python".toList t with
  | none => none
  | some i =>
    let rest := t.drop (i + 9)
    match subIdx "```".toList rest with
    | none => none
    | some j => some (pyStrip (rest.take j))

/-- Second pattern: the same with a bare fence. -/
def extraePatronFence (t : List Char) : Option (List Char) :=
  match subIdx "```".toList t with
  | none => none
  | some i =>
    let rest := t.drop (i + 3)
    match subIdx "```".toList rest with
    | none => none
    | some j => some (pyStrip (rest.take j))

/-- The stop condition of the lookahead `(?=\n\S|\Z)` in the third
pattern: end of input, or a newline followed by a non-space. -/
def stopCond : List Char → Bool
  | [] => true
  | '\n' :: c :: _ => !wsChar c
  | _ => false

/-- Third pattern `def\s+\w+\s*\(.*?\):.*?(?=\n\S|\Z)` anchored at
position `i`: a `def`, whitespace, an identifier, optional whitespace,
a parenthesised argument list lazily closed by `):`, then the shortest
continuation ending at the lookahead. -/
def defMatchAt (t : List Char) (i : Nat) : Option (List Char) :=
  match t.drop i with
  | 'd' :: 'e' :: 'f' :: r =>
    if (r.takeWhile wsChar).isEmpty then none
    else
      let r1 := r.dropWhile wsChar
      if (r1.takeWhile wordChar).isEmpty then none
      else
        match (r1.dropWhile wordChar).dropWhile wsChar with
        | '(' :: r3 =>
          match subIdx "):".toList r3 with
          | none => none
          | some k =>
            let tail := r3.drop (k + 2)
            match (List.range (tail.length + 1)).find? fun e => stopCond (tail.drop e) with
            | none => none
            | some e =>
              some ((t.drop i).take ((t.drop i).length - (tail.length - e)))
        | _ => none
  | _ => none

/-- The full third pattern: the match at the leftmost position where
one exists. -/
def extraePatronDef (t : List Char) : Option (List Char) :=
  (List.range (t.length + 1)).findSome? fun i => defMatchAt t i

/-- `AgenteGenerador._extraer_codigo_python`: the three patterns are
tried in order; the first non-empty match list wins, and the winning
match is stripped. -/
def extraer_codigo_python (texto : String) : Option String :=
  let t := texto.toList
  match extraePatronPy t with
  | some c => some ⟨c⟩
  | none =>
    match extraePatronFence t with
    | some c => some ⟨c⟩
    | none => (extraePatronDef t).map fun c => ⟨pyStrip c⟩

/-- The generic fallback template (`_usar_template_fallback`, non-ldap
branch), with the request interpolated. -/
def template_generic_fallback (consulta : String) : String :=
  "\ndef get_generic_query_fallback():\n    \"\"\"Herramienta fallback genérica\"\"\"\n    return f\"Respuesta genérica para: "
    ++ consulta ++ "\"\n"

/-- `AgenteGenerador._usar_template_fallback`.  The `ldap_query`
template is an f-string whose body contains the unescaped interpolation
`\x7blen(resultado)\x7d` with `resultado` not in scope, so constructing
it raises `NameError` instead of returning a template; the generic
branch interpolates only `consulta` and succeeds. -/
def usar_template_fallback (consulta tipo : String) : Except String String :=
  if tipo = "ldap_query" then
    .error "name \x27resultado\x27 is not defined"
  else
    .ok (template_generic_fallback consulta)

/-- A value found in the namespace produced by `exec`: a Python
function (identified by an opaque id) or any non-callable value. -/
inductive NsVal where
  | funcionPy (id : Nat)
  | otro
deriving DecidableEq

/-- `callable(valor)`. -/
def esCallable : NsVal → Bool
  | .funcionPy _ => true
  | .otro => false

/-- The behavior of `exec` on a given source text: `none` models a
raised exception, `some ns` the resulting local namespace in insertion
order. -/
structure EntornoExec where
  resultado : String → Option (List (String × NsVal))

/-- The callable returned by `_crear_funcion_dinamica`: either a
function found in the exec namespace, or the `funcion_wrapper` closure
over the generated code and the request. -/
inductive Callable where
  | delNamespace (nombre : String) (id : Nat)
  | wrapper (codigo consulta : String)
deriving DecidableEq

/-- `AgenteGenerador._crear_funcion_dinamica`: exec the code; return
the first callable whose name starts with `get_`, else the generic
wrapper; a raised exception is caught and yields `None`. -/
def crear_funcion_dinamica (env : EntornoExec) (codigo consulta : String) : Option Callable :=
  match env.resultado codigo with
  | none => none
  | some ns =>
    match ns.find? fun e => esCallable e.2 && e.1.startsWith "get_" with
    | some (n, .funcionPy i) => some (.delNamespace n i)
    | some (_, .otro) => some (.wrapper codigo consulta)
    | none => some (.wrapper codigo consulta)

/-- The behavior of the Gemini provider on this request: `falla` models
any exception out of the client (network failure, timeout, bad
response object), `respuesta` the free-form text returned otherwise. -/
structure ProveedorIA where
  falla : Bool
  respuesta : String

/-- `AgenteGenerador._generar_codigo_con_ia`: on provider success,
extract code from the response (`None`/empty extraction propagates as
`None`, not as a fallback); on provider failure the except-branch
builds the fallback template, whose own `NameError` (ldap branch)
escapes this function. -/
def generar_codigo_con_ia (ia : ProveedorIA) (consulta tipo : String) :
    Except String (Option String) :=
  if ia.falla then
    match usar_template_fallback consulta tipo with
    | .ok t => .ok (some t)
    | .error e => .error e
  else
    match extraer_codigo_python ia.respuesta with
    | none => .ok none
    | some c => if c = "" then .ok none else .ok (some c)

/-- The result dictionary of `generar_herramienta`. -/
inductive GenResultado where
  | err (mensaje : String)
  | ok (nombre : String) (funcion : Callable) (codigo tipo consulta_original : String)
deriving DecidableEq

/-- `error` field of the result. -/
def GenResultado.esError : GenResultado → Bool
  | .err _ => true
  | .ok _ _ _ _ _ => false

/-- `AgenteGenerador.generar_herramienta`: the full synthesis entry
point, with the missing-API-key guard, the code-generation step, the
dynamic compilation step and the outer catch-all. -/
def generar_herramienta (ia : ProveedorIA) (env : EntornoExec) (apiKey : Option String)
    (consulta tipo : String) : GenResultado :=
  if apiKey.getD "" = "" then
    .err "API key de Gemini no configurada"
  else
    match generar_codigo_con_ia ia consulta tipo with
    | .error e => .err ("Error en generación: " ++ e)
    | .ok none => .err "No se pudo generar código para la consulta"
    | .ok (some codigo) =>
      if codigo = "" then .err "No se pudo generar código para la consulta"
      else
        match crear_funcion_dinamica env codigo consulta with
        | none => .err "Error creando función dinámica"
        | some funcion =>
          .ok (generar_nombre_herramienta consulta) funcion codigo tipo consulta

/-! ## Capability Invoker (`AgenteEjecutor`, ejecutor.py)

The live callables are opaque: a builtin is tagged by its import name,
a synthesized one is any `Callable` from the synthesizer (or, for the
adversarial cases, an arbitrary tagged function). -/

/-- A Python function object held by the invoker. -/
inductive Func where
  | base (origen : String)
  | generada (f : Callable)
deriving DecidableEq

/-- The six builtin entries installed by
`_inicializar_herramientas_base`, in source order. -/
def herramientas_base_init : List (String × Func) :=
  [("get_current_user_info", .base "get_current_user_info"),
   ("get_user_groups", .base "get_user_groups"),
   ("reset_system", .base "reset_system"),
   ("list_all_users", .base "list_all_users"),
   ("search_users_by_department", .base "search_users_by_department"),
   ("analyze_ldap_structure", .base "analyze_ldap_structure")]

/-- The three dicts owned by an `AgenteEjecutor`. -/
structure EjState where
  herramientas : List (String × Func)
  herramientas_base : List (String × Func)
  herramientas_generadas : List (String × Func)
deriving DecidableEq

/-- `AgenteEjecutor.__init__`: `herramientas` starts as a copy of the
builtins (`{} .update(base)`). -/
def ejecutorInit : EjState :=
  { herramientas := herramientas_base_init
    herramientas_base := herramientas_base_init
    herramientas_generadas := [] }

/-- `AgenteEjecutor.agregar_herramienta_generada` (always returns
`True`). -/
def agregar_herramienta_generada (s : EjState) (nombre : String) (funcion : Func) :
    EjState × Bool :=
  ({ s with
      herramientas_generadas := dInsert s.herramientas_generadas nombre funcion
      herramientas := dInsert s.herramientas nombre funcion }, true)

/-- `AgenteEjecutor.remover_herramienta_generada`. -/
def remover_herramienta_generada (s : EjState) (nombre : String) : EjState × Bool :=
  if dHas s.herramientas_generadas nombre then
    ({ s with
        herramientas_generadas := dRemove s.herramientas_generadas nombre
        herramientas := dRemove s.herramientas nombre }, true)
  else (s, false)

/-- `AgenteEjecutor.reset_herramientas_generadas`: removes every
currently synthesized name and returns how many were removed (the
`len` of the removed-names list, not the list itself). -/
def reset_herramientas_generadas (s : EjState) : EjState × Nat :=
  let removidas := dKeys s.herramientas_generadas
  (removidas.foldl (fun st n => (remover_herramienta_generada st n).1) s, removidas.length)

/-- The result dictionary of `ejecutar_herramienta`. -/
inductive EjResultado where
  | ok (herramienta resultado tipo : String)
  | errNoEncontrada (mensaje : String) (herramientas_disponibles : List String)
  | errEjecucion (mensaje herramienta : String)
deriving DecidableEq

/-- `error` field of the result. -/
def EjResultado.esError : EjResultado → Bool
  | .ok _ _ _ => false
  | _ => true

/-- `AgenteEjecutor.ejecutar_herramienta`: unknown names produce the
not-found error carrying `list(self.herramientas.keys())`; a present
tool is called through the oracle `run`, whose raised exceptions are
converted into execution-failure results. -/
def ejecutar_herramienta (run : Func → Except String String) (s : EjState) (nombre : String) :
    EjResultado :=
  match dGet s.herramientas nombre with
  | none =>
    .errNoEncontrada ("Herramienta \x27" ++ nombre ++ "\x27 no encontrada")
      (dKeys s.herramientas)
  | some f =>
    match run f with
    | .ok resultado =>
      .ok nombre resultado (if dHas s.herramientas_base nombre then "base" else "generada")
    | .error e => .errEjecucion ("Error ejecutando " ++ nombre ++ ": " ++ e) nombre

/-- Invoker states reachable through the public mutators from the
freshly initialised agent, with arbitrary arguments. -/
inductive Reachable : EjState → Prop where
  | init : Reachable ejecutorInit
  | agregar (s : EjState) (nombre : String) (funcion : Func) :
      Reachable s → Reachable (agregar_herramienta_generada s nombre funcion).1
  | remover (s : EjState) (nombre : String) :
      Reachable s → Reachable (remover_herramienta_generada s nombre).1
  | reset (s : EjState) :
      Reachable s → Reachable (reset_herramientas_generadas s).1

/-- Reachability when `agregar_herramienta_generada` is only ever given
non-builtin names — the discipline the orchestrator obeys, since every
synthesized name carries an 8-hex-digit hash suffix. -/
inductive ReachableNC : EjState → Prop where
  | init : ReachableNC ejecutorInit
  | agregar (s : EjState) (nombre : String) (funcion : Func) :
      ReachableNC s → dHas herramientas_base_init nombre = false →
      ReachableNC (agregar_herramienta_generada s nombre funcion).1
  | remover (s : EjState) (nombre : String) :
      ReachableNC s → ReachableNC (remover_herramienta_generada s nombre).1
  | reset (s : EjState) :
      ReachableNC s → ReachableNC (reset_herramientas_generadas s).1

/-- The live mapping agrees pointwise with "synthesized over builtin":
the spec's `live = builtins ∪ synthesized` read as maps. -/
def UnionPuntual (s : EjState) : Prop :=
  ∀ k, dGet s.herramientas k =
    match dGet s.herramientas_generadas k with
    | some f => some f
    | none => dGet s.herramientas_base k

/-- The inductive invariant of the no-collision reachable states. -/
structure InvEj (s : EjState) : Prop where
  base_fija : s.herramientas_base = herramientas_base_init
  union : UnionPuntual s
  sin_choque : ∀ k, dHas s.herramientas_generadas k = true →
    dHas herramientas_base_init k = false
  nodup_herr : (dKeys s.herramientas).Nodup
  nodup_gen : (dKeys s.herramientas_generadas).Nodup

theorem dHas_of_mem_dKeys {β : Type} {d : List (String × β)} {k : String}
    (h : k ∈ dKeys d) : dHas d k = true := by
  rcases List.mem_map.mp h with ⟨e, he, hk⟩
  simp only [dHas, dGet]
  cases hf : d.find? fun x => x.1 == k with
  | none =>
    have := List.find?_eq_none.mp hf e he
    simp [hk] at this
  | some p => simp

theorem dGet_dRemove_none {β : Type} {d : List (String × β)} {m : String} (n : String)
    (h : dGet d m = none) : dGet (dRemove d n) m = none := by
  apply dGet_eq_none_of_not_mem
  intro hmem
  have hsub := dKeys_dRemove_sublist d n
  have : m ∈ dKeys d := hsub.subset hmem
  have := dHas_of_mem_dKeys this
  simp [dHas, h] at this

theorem invEj_init : InvEj ejecutorInit := by
  refine ⟨rfl, ?_, ?_, ?_, ?_⟩
  · intro k
    simp [ejecutorInit, dGet]
  · intro k h
    simp [ejecutorInit, dHas, dGet] at h
  · decide
  · decide

theorem invEj_agregar {s : EjState} (h : InvEj s) (nombre : String) (funcion : Func)
    (hb : dHas herramientas_base_init nombre = false) :
    InvEj (agregar_herramienta_generada s nombre funcion).1 := by
  refine ⟨h.base_fija, ?_, ?_, ?_, ?_⟩
  · intro k
    by_cases hk : k = nombre
    · subst hk
      simp [agregar_herramienta_generada, dGet_dInsert_self]
    · simp only [agregar_herramienta_generada]
      rw [dGet_dInsert_ne _ _ hk, dGet_dInsert_ne _ _ hk]
      exact h.union k
  · intro k hk
    by_cases hkn : k = nombre
    · subst hkn; exact hb
    · have hk' : dHas (dInsert s.herramientas_generadas nombre funcion) k = true := by
        simpa [agregar_herramienta_generada] using hk
      rw [dHas, dGet_dInsert_ne _ _ hkn] at hk'
      exact h.sin_choque k hk'
  · have := nodup_dKeys_dInsert s.herramientas nombre funcion h.nodup_herr
    simpa [agregar_herramienta_generada] using this
  · have := nodup_dKeys_dInsert s.herramientas_generadas nombre funcion h.nodup_gen
    simpa [agregar_herramienta_generada] using this

theorem invEj_remover {s : EjState} (h : InvEj s) (nombre : String) :
    InvEj (remover_herramienta_generada s nombre).1 := by
  by_cases hg : dHas s.herramientas_generadas nombre
  · have hstep : (remover_herramienta_generada s nombre).1 =
        { s with herramientas_generadas := dRemove s.herramientas_generadas nombre
                 herramientas := dRemove s.herramientas nombre } := by
      simp [remover_herramienta_generada, hg]
    have hbase : dGet s.herramientas_base nombre = none := by
      have h2 := h.sin_choque nombre hg
      rw [h.base_fija]
      cases ho : dGet herramientas_base_init nombre with
      | none => rfl
      | some v => rw [dHas, ho] at h2; simp at h2
    rw [hstep]
    refine ⟨h.base_fija, ?_, ?_, ?_, ?_⟩
    · intro k
      by_cases hk : k = nombre
      · subst hk
        simp only
        rw [dGet_dRemove_self _ _ h.nodup_herr, dGet_dRemove_self _ _ h.nodup_gen]
        simpa using hbase.symm
      · simp only
        rw [dGet_dRemove_ne _ hk, dGet_dRemove_ne _ hk]
        exact h.union k
    · intro k hk
      simp only at hk
      by_cases hkn : k = nombre
      · rw [hkn, dHas, dGet_dRemove_self _ _ h.nodup_gen] at hk
        simp at hk
      · rw [dHas, dGet_dRemove_ne _ hkn] at hk
        exact h.sin_choque k hk
    · exact nodup_dKeys_dRemove _ _ h.nodup_herr
    · exact nodup_dKeys_dRemove _ _ h.nodup_gen
  · simpa [remover_herramienta_generada, hg] using h

theorem remover_herr_none {s : EjState} {m : String} (n : String)
    (h : dGet s.herramientas m = none) :
    dGet (remover_herramienta_generada s n).1.herramientas m = none := by
  by_cases hg : dHas s.herramientas_generadas n
  · simpa [remover_herramienta_generada, hg] using dGet_dRemove_none n h
  · simpa [remover_herramienta_generada, hg] using h

theorem fold_remover_none (l : List String) (s : EjState) (m : String)
    (h : dGet s.herramientas m = none) :
    dGet (l.foldl (fun st n => (remover_herramienta_generada st n).1) s).herramientas m
      = none := by
  induction l generalizing s with
  | nil => simpa using h
  | cons n l ih =>
    simpa using ih _ (remover_herr_none n h)

theorem fold_remover_spec (l : List String) (s : EjState) (hInv : InvEj s)
    (hk : dKeys s.herramientas_generadas = l) :
    InvEj (l.foldl (fun st n => (remover_herramienta_generada st n).1) s) ∧
    (l.foldl (fun st n => (remover_herramienta_generada st n).1) s).herramientas_generadas
      = [] ∧
    ∀ m ∈ l, dGet
      (l.foldl (fun st n => (remover_herramienta_generada st n).1) s).herramientas m
        = none := by
  induction l generalizing s with
  | nil =>
    have : s.herramientas_generadas = [] := by
      cases hgen : s.herramientas_generadas with
      | nil => rfl
      | cons e t => rw [hgen] at hk; simp [dKeys] at hk
    simp [this, hInv]
  | cons n l ih =>
    cases hgen : s.herramientas_generadas with
    | nil => rw [hgen] at hk; simp [dKeys] at hk
    | cons e t =>
      rw [hgen] at hk
      simp only [dKeys, List.map_cons, List.cons.injEq] at hk
      obtain ⟨hen, hkt⟩ := hk
      have hhas : dHas s.herramientas_generadas n = true := by
        apply dHas_of_mem_dKeys
        rw [hgen]
        simp [dKeys, hen]
      have hstep : (remover_herramienta_generada s n).1 =
          { s with herramientas_generadas := dRemove s.herramientas_generadas n
                   herramientas := dRemove s.herramientas n } := by
        simp [remover_herramienta_generada, hhas]
      have hgen1 : (remover_herramienta_generada s n).1.herramientas_generadas = t := by
        rw [hstep]
        simp only [hgen, dRemove]
        rw [if_pos (by simp [hen])]
      have hInv1 := invEj_remover hInv n
      have hkeys1 : dKeys (remover_herramienta_generada s n).1.herramientas_generadas = l := by
        rw [hgen1]; exact hkt
      obtain ⟨ih1, ih2, ih3⟩ := ih _ hInv1 hkeys1
      refine ⟨by simpa using ih1, by simpa using ih2, ?_⟩
      intro m hm
      rcases List.mem_cons.mp hm with hmn | hml
      · have hnone : dGet (remover_herramienta_generada s n).1.herramientas m = none := by
          rw [hstep, hmn]
          exact dGet_dRemove_self _ _ hInv.nodup_herr
        simpa using fold_remover_none l _ m hnone
      · simpa using ih3 m hml

theorem invEj_reset {s : EjState} (h : InvEj s) :
    InvEj (reset_herramientas_generadas s).1 :=
  (fold_remover_spec _ s h rfl).1

theorem reachableNC_invEj {s : EjState} (h : ReachableNC s) : InvEj s := by
  induction h with
  | init => exact invEj_init
  | agregar s nombre funcion _ hb ih => exact invEj_agregar ih nombre funcion hb
  | remover s nombre _ ih => exact invEj_remover ih nombre
  | reset s _ ih => exact invEj_reset ih

/-! ## Capability Catalog (`RegistryTools`, registry.py)

Timestamps (`datetime.now().isoformat()`) enter as explicit parameters;
the durable store is a `Option Documento` (the JSON file's contents, or
`none` when the file does not exist), and an I/O fault during a save is
the boolean oracle `ioFalla`. -/

/-- The caller-supplied metadata dict (the keys `SistemaAgentes`
passes; the registry treats it opaquely). -/
structure Metadata where
  tipo : String
  consulta_original : String
  codigo_generado : String
  fecha_generacion : String
deriving DecidableEq

/-- A row of `herramientas_registradas`: the caller metadata plus the
fields `registrar_herramienta`, `desregistrar_herramienta` and
`incrementar_uso` add (`Option` for the keys that may be absent). -/
structure RegEntry where
  meta : Metadata
  fecha_registro : String
  estado : String
  uso_count : Nat
  fecha_desregistro : Option String
  ultimo_uso : Option String
deriving DecidableEq

/-- An audit record of `historial_herramientas` (`metadata` is only
present on `registro` actions). -/
structure AuditRec where
  accion : String
  herramienta : String
  timestamp : String
  metadata : Option Metadata
deriving DecidableEq

/-- The in-memory state of a `RegistryTools`. -/
structure RegState where
  herramientas_registradas : List (String × RegEntry)
  historial_herramientas : List AuditRec
deriving DecidableEq

/-- The durable store document written by `guardar_registro`. -/
structure Documento where
  herramientas : List (String × RegEntry)
  historial : List AuditRec
  ultima_actualizacion : String
deriving DecidableEq

/-- `RegistryTools.guardar_registro`: writes the whole document; an I/O
fault is caught *inside this helper* (logged and printed), leaving the
previous disk contents in place and raising nothing to the caller. -/
def guardar_registro (ioFalla : Bool) (st : RegState) (disk : Option Documento)
    (ahora : String) : Option Documento :=
  if ioFalla then disk
  else some ⟨st.herramientas_registradas, st.historial_herramientas, ahora⟩

/-- The entry `registrar_herramienta` builds: caller metadata augmented
with `fecha_registro`, `estado = "activa"` and `uso_count = 0`. -/
def entradaNueva (md : Metadata) (ahora : String) : RegEntry :=
  ⟨md, ahora, "activa", 0, none, none⟩

/-- `RegistryTools.registrar_herramienta`: inserts (or silently
replaces) the entry, appends a `registro` audit record, saves, and
returns `True`; nothing in the try-body can raise (the save helper
catches its own faults), so the `False` branch is unreachable. -/
def registrar_herramienta (ioFalla : Bool) (st : RegState) (disk : Option Documento)
    (nombre : String) (md : Metadata) (ahora : String) :
    Bool × RegState × Option Documento :=
  let st' : RegState :=
    { herramientas_registradas :=
        dInsert st.herramientas_registradas nombre (entradaNueva md ahora)
      historial_herramientas :=
        st.historial_herramientas ++ [⟨"registro", nombre, ahora, some md⟩] }
  (true, st', guardar_registro ioFalla st' disk ahora)

/-- `RegistryTools.desregistrar_herramienta`: soft delete — flips
`estado` to `inactiva` and stamps `fecha_desregistro`. -/
def desregistrar_herramienta (ioFalla : Bool) (st : RegState) (disk : Option Documento)
    (nombre : String) (ahora : String) : Bool × RegState × Option Documento :=
  match dGet st.herramientas_registradas nombre with
  | none => (false, st, disk)
  | some entrada =>
    let desactivada : RegEntry :=
      { entrada with estado := "inactiva", fecha_desregistro := some ahora }
    let st' : RegState :=
      { herramientas_registradas :=
          dInsert st.herramientas_registradas nombre desactivada
        historial_herramientas :=
          st.historial_herramientas ++ [⟨"desregistro", nombre, ahora, none⟩] }
    (true, st', guardar_registro ioFalla st' disk ahora)

/-- `RegistryTools.incrementar_uso`: bumps the counter and stamps
`ultimo_uso`; absent names are a silent no-op. -/
def incrementar_uso (st : RegState) (nombre : String) (ahora : String) : RegState :=
  match dGet st.herramientas_registradas nombre with
  | none => st
  | some entrada =>
    let usada : RegEntry :=
      { entrada with uso_count := entrada.uso_count + 1, ultimo_uso := some ahora }
    { st with herramientas_registradas :=
        dInsert st.herramientas_registradas nombre usada }

/-- The result of `listar_herramientas`. -/
structure ListarResultado where
  total : Nat
  herramientas : List (String × RegEntry)
  filtro_aplicado : Option String
deriving DecidableEq

/-- `RegistryTools.listar_herramientas`. -/
def listar_herramientas (st : RegState) (filtro_estado : Option String) : ListarResultado :=
  let filtradas :=
    match filtro_estado with
    | some f => st.herramientas_registradas.filter fun e => e.2.estado == f
    | none => st.herramientas_registradas
  ⟨filtradas.length, filtradas, filtro_estado⟩

/-- `RegistryTools.reset_completo`: clears the in-memory state and
deletes the durable store. -/
def reset_completo (_st : RegState) (_disk : Option Documento) :
    RegState × Option Documento :=
  (⟨[], []⟩, none)

/-! ## Orchestrator-level reset (`SistemaAgentes.reset_sistema`) -/

/-- The classifier's mutable state (`herramientas_disponibles`,
`historial_consultas`). -/
structure CoordState where
  herramientas_disponibles : List String
  historial_consultas : List (String × String)
deriving DecidableEq

/-- `SistemaAgentes.reset_sistema`: Invoker reset, then Catalog
`reset_completo`, then the classifier's sets are cleared; the reply
carries the count the Invoker reset returned. -/
def reset_sistema (ej : EjState) (reg : RegState) (disk : Option Documento)
    (_co : CoordState) : EjState × RegState × Option Documento × CoordState × Nat :=
  let (ej', removidas) := reset_herramientas_generadas ej
  let (reg', disk') := reset_completo reg disk
  (ej', reg', disk', ⟨[], []⟩, removidas)

/-! # The claims -/

/-! ## C5 — deterministic, content-derived capability names -/

/-- C5: name derivation is deterministic and idempotent — deriving the
capability name twice from identical request text yields the identical
name, and that name is the content hash of the request (first 8 hex
characters of its MD5) concatenated after its first few significant
words, never a random identifier. -/
theorem nombre_determinista_y_por_contenido (c₁ c₂ : String) (h : c₁ = c₂) :
    generar_nombre_herramienta c₁ = generar_nombre_herramienta c₂ ∧
    ∃ nombreBase : String,
      generar_nombre_herramienta c₁ =
        "get_" ++ nombreBase ++ "_" ++ String.mk ((md5Hex (encodeUtf8 c₁)).take 8) := by
  subst h
  exact ⟨rfl, ⟨_, rfl⟩⟩

/-- C5 witness: the two derivations for the literal request
`who am i` coincide and have the advertised hash-suffixed shape. -/
theorem nombre_determinista_y_por_contenido_witness :
    generar_nombre_herramienta "who am i" = generar_nombre_herramienta "who am i" ∧
    ∃ nombreBase : String,
      generar_nombre_herramienta "who am i" =
        "get_" ++ nombreBase ++ "_" ++ String.mk ((md5Hex (encodeUtf8 "who am i")).take 8) :=
  nombre_determinista_y_por_contenido "who am i" "who am i" rfl

/-! ## C7 — the classifier is total and degrades to synthesis -/

/-- C7: `analizar_consulta` returns a decision for every input; when no
trigger phrase matches the lowered request it routes to the generator,
always carrying a category hint, and that hint defaults to
`generic_query` when none of the category keywords occurs. -/
theorem clasificador_total_con_default (consulta : String) :
    (analizar_consulta consulta =
        Decision.ejecutar (identificar_herramienta consulta) consulta ∨
      analizar_consulta consulta =
        Decision.generar (determinar_tipo_herramienta consulta) consulta) ∧
    (puede_responder_directamente consulta = false →
      analizar_consulta consulta =
        Decision.generar (determinar_tipo_herramienta consulta) consulta) ∧
    (determinar_tipo_herramienta consulta = "ldap_query" ∨
      determinar_tipo_herramienta consulta = "generic_query") ∧
    (algunaFrase ["grupos", "groups"] (lowerStr consulta) = false →
      algunaFrase ["usuarios", "users"] (lowerStr consulta) = false →
      algunaFrase ["departamento", "department"] (lowerStr consulta) = false →
      determinar_tipo_herramienta consulta = "generic_query") := by
  refine ⟨?_, ?_, ?_, ?_⟩
  · by_cases h : puede_responder_directamente consulta
    · exact Or.inl (by simp [analizar_consulta, h])
    · exact Or.inr (by simp [analizar_consulta, h])
  · intro h
    simp [analizar_consulta, h]
  · unfold determinar_tipo_herramienta
    split_ifs <;> simp
  · intro h1 h2 h3
    simp [determinar_tipo_herramienta, h1, h2, h3]

/-- C7 witness: the unmatched request `hola` is routed to the
generator with the default `generic_query` hint. -/
theorem clasificador_total_con_default_witness :
    analizar_consulta "hola" = Decision.generar "generic_query" "hola" := by
  have h := (clasificador_total_con_default "hola").2.1 (by decide)
  have ht : determinar_tipo_herramienta "hola" = "generic_query" := by decide
  rw [ht] at h
  exact h

/-! ## C3 — Catalog register under an I/O fault -/

/-- A throwaway metadata value for concrete states. -/
def mdEjemplo : Metadata :=
  ⟨"generic_query", "cuantos departamentos existen", "def get_x(): ...", "ahora"⟩

/-- A throwaway pre-existing durable document. -/
def docEjemplo : Documento := ⟨[], [], "t0"⟩

/-- C3 counterexample: with the durable write faulting,
`registrar_herramienta` returns `True` — not `False` as claimed —
because the fault is caught inside `guardar_registro` and never reaches
the register's own except-branch; the in-memory entry is still added
and the disk keeps its previous contents. -/
theorem registrar_con_fallo_io_counterexample :
    (registrar_herramienta true ⟨[], []⟩ (some docEjemplo) "get_x_ab12cd34" mdEjemplo "t1").1
      = true ∧
    ¬ ((registrar_herramienta true ⟨[], []⟩ (some docEjemplo) "get_x_ab12cd34" mdEjemplo
        "t1").1 = false) ∧
    dGet (registrar_herramienta true ⟨[], []⟩ (some docEjemplo) "get_x_ab12cd34" mdEjemplo
        "t1").2.1.herramientas_registradas "get_x_ab12cd34"
      = some (entradaNueva mdEjemplo "t1") ∧
    (registrar_herramienta true ⟨[], []⟩ (some docEjemplo) "get_x_ab12cd34" mdEjemplo "t1").2.2
      = some docEjemplo := by
  refine ⟨rfl, by decide, by decide, rfl⟩

/-- C3 amended: if the durable-store write inside `registrar_herramienta`
fails with an I/O fault, the fault is caught (inside `guardar_registro`),
nothing is raised, the in-memory state still advances — but the call
reports `True`, not `False`, and the durable store keeps its previous
contents. -/
theorem registrar_con_fallo_io (st : RegState) (disk : Option Documento)
    (nombre : String) (md : Metadata) (ahora : String) :
    (registrar_herramienta true st disk nombre md ahora).1 = true ∧
    dGet (registrar_herramienta true st disk nombre md ahora).2.1.herramientas_registradas
        nombre = some (entradaNueva md ahora) ∧
    (registrar_herramienta true st disk nombre md ahora).2.1.historial_herramientas
      = st.historial_herramientas ++ [⟨"registro", nombre, ahora, some md⟩] ∧
    (registrar_herramienta true st disk nombre md ahora).2.2 = disk := by
  refine ⟨rfl, ?_, rfl, rfl⟩
  simp [registrar_herramienta, dGet_dInsert_self]

/-! ## C9 — re-registration silently resets the catalog row -/

/-- C9: registering a name already present in the catalog silently
replaces the previous row with a fresh one — `estado` back to `activa`
and `uso_count` back to `0`, whatever the old row held — while a new
`registro` audit record is appended to the history. -/
theorem reregistro_resetea_entrada (ioFalla : Bool) (st : RegState)
    (disk : Option Documento) (nombre : String) (md : Metadata) (ahora : String)
    (prev : RegEntry)
    (_h : dGet st.herramientas_registradas nombre = some prev) :
    dGet (registrar_herramienta ioFalla st disk nombre md ahora).2.1.herramientas_registradas
        nombre = some (entradaNueva md ahora) ∧
    (entradaNueva md ahora).uso_count = 0 ∧
    (entradaNueva md ahora).estado = "activa" ∧
    (registrar_herramienta ioFalla st disk nombre md ahora).2.1.historial_herramientas
      = st.historial_herramientas ++ [⟨"registro", nombre, ahora, some md⟩] := by
  refine ⟨?_, rfl, rfl, rfl⟩
  simp [registrar_herramienta, dGet_dInsert_self]

/-- C9 witness: a retired row with an accumulated counter
(`estado = inactiva`, `uso_count = 5`) is replaced by a fresh active
row with a zero counter. -/
theorem reregistro_resetea_entrada_witness :
    dGet (registrar_herramienta false
        ⟨[("get_x_ab12cd34", ⟨mdEjemplo, "t0", "inactiva", 5, some "t2", some "t3"⟩)], []⟩
        none "get_x_ab12cd34" mdEjemplo "t4").2.1.herramientas_registradas "get_x_ab12cd34"
      = some (entradaNueva mdEjemplo "t4") ∧
    (entradaNueva mdEjemplo "t4").uso_count = 0 ∧
    (entradaNueva mdEjemplo "t4").estado = "activa" ∧
    (registrar_herramienta false
        ⟨[("get_x_ab12cd34", ⟨mdEjemplo, "t0", "inactiva", 5, some "t2", some "t3"⟩)], []⟩
        none "get_x_ab12cd34" mdEjemplo "t4").2.1.historial_herramientas
      = [] ++ [⟨"registro", "get_x_ab12cd34", "t4", some mdEjemplo⟩] :=
  reregistro_resetea_entrada false
    ⟨[("get_x_ab12cd34", ⟨mdEjemplo, "t0", "inactiva", 5, some "t2", some "t3"⟩)], []⟩
    none "get_x_ab12cd34" mdEjemplo "t4" ⟨mdEjemplo, "t0", "inactiva", 5, some "t2", some "t3"⟩
    (by decide)

/-! ## C10 — every execute decision carries a resolved tool name -/

/-- All branch phrases of `_identificar_herramienta`, in branch order. -/
def frases_todas : List String :=
  frases_user_info ++ frases_groups ++ frases_reset ++ frases_list_users ++
    frases_search_users ++ frases_structure ++ frases_rootdse ++ frases_anon ++
    frases_starttls

/-- Every trigger pattern of `_puede_responder_directamente` contains
some branch phrase of `_identificar_herramienta` as a substring (checked
by evaluation over both finite tables). -/
theorem cobertura_patrones :
    ∀ p ∈ patrones_conocidos, ∃ q ∈ frases_todas, pyIn q p = true := by decide

theorem algunaFrase_de_mem {frases : List String} {q lc : String}
    (hq : q ∈ frases) (hin : pyIn q lc = true) : algunaFrase frases lc = true :=
  List.any_eq_true.mpr ⟨q, hq, hin⟩

/-- If some branch condition of `_identificar_herramienta` holds, the
resolution is not `none`. -/
theorem identificar_isSome_alguna {consulta : String}
    (h : algunaFrase frases_user_info (lowerStr consulta) = true ∨
      algunaFrase frases_groups (lowerStr consulta) = true ∨
      algunaFrase frases_reset (lowerStr consulta) = true ∨
      algunaFrase frases_list_users (lowerStr consulta) = true ∨
      algunaFrase frases_search_users (lowerStr consulta) = true ∨
      algunaFrase frases_structure (lowerStr consulta) = true ∨
      algunaFrase frases_rootdse (lowerStr consulta) = true ∨
      algunaFrase frases_anon (lowerStr consulta) = true ∨
      algunaFrase frases_starttls (lowerStr consulta) = true) :
    (identificar_herramienta consulta).isSome = true := by
  unfold identificar_herramienta
  by_cases h1 : algunaFrase frases_user_info (lowerStr consulta) = true
  · rw [if_pos h1]; rfl
  rw [if_neg h1]
  by_cases h2 : algunaFrase frases_groups (lowerStr consulta) = true
  · rw [if_pos h2]; rfl
  rw [if_neg h2]
  by_cases h3 : algunaFrase frases_reset (lowerStr consulta) = true
  · rw [if_pos h3]; rfl
  rw [if_neg h3]
  by_cases h4 : algunaFrase frases_list_users (lowerStr consulta) = true
  · rw [if_pos h4]; rfl
  rw [if_neg h4]
  by_cases h5 : algunaFrase frases_search_users (lowerStr consulta) = true
  · rw [if_pos h5]; rfl
  rw [if_neg h5]
  by_cases h6 : algunaFrase frases_structure (lowerStr consulta) = true
  · rw [if_pos h6]; rfl
  rw [if_neg h6]
  by_cases h7 : algunaFrase frases_rootdse (lowerStr consulta) = true
  · rw [if_pos h7]; rfl
  rw [if_neg h7]
  by_cases h8 : algunaFrase frases_anon (lowerStr consulta) = true
  · rw [if_pos h8]; rfl
  rw [if_neg h8]
  by_cases h9 : algunaFrase frases_starttls (lowerStr consulta) = true
  · rw [if_pos h9]; rfl
  rcases h with h | h | h | h | h | h | h | h | h <;> contradiction

/-- If any branch phrase occurs in the lowered request, resolution
succeeds. -/
theorem identificar_isSome_de_frase {consulta q : String}
    (hq : q ∈ frases_todas) (hin : pyIn q (lowerStr consulta) = true) :
    (identificar_herramienta consulta).isSome = true := by
  apply identificar_isSome_alguna
  simp only [frases_todas, List.mem_append] at hq
  rcases hq with ((((((((hq | hq) | hq) | hq) | hq) | hq) | hq) | hq) | hq)
  · exact Or.inl (algunaFrase_de_mem hq hin)
  · exact Or.inr (Or.inl (algunaFrase_de_mem hq hin))
  · exact Or.inr (Or.inr (Or.inl (algunaFrase_de_mem hq hin)))
  · exact Or.inr (Or.inr (Or.inr (Or.inl (algunaFrase_de_mem hq hin))))
  · exact Or.inr (Or.inr (Or.inr (Or.inr (Or.inl (algunaFrase_de_mem hq hin)))))
  · exact Or.inr (Or.inr (Or.inr (Or.inr (Or.inr (Or.inl (algunaFrase_de_mem hq hin))))))
  · exact Or.inr (Or.inr (Or.inr (Or.inr (Or.inr (Or.inr (Or.inl
      (algunaFrase_de_mem hq hin)))))))
  · exact Or.inr (Or.inr (Or.inr (Or.inr (Or.inr (Or.inr (Or.inr (Or.inl
      (algunaFrase_de_mem hq hin))))))))
  · exact Or.inr (Or.inr (Or.inr (Or.inr (Or.inr (Or.inr (Or.inr (Or.inr
      (algunaFrase_de_mem hq hin))))))))

/-- C10: whenever `analizar_consulta` produces an execute decision, the
resolved capability name is not `None`: the `None` branch of
`_identificar_herramienta` is unreachable when
`_puede_responder_directamente` voted yes. -/
theorem decision_ejecutar_resuelta (consulta cc : String) (herr : Option String)
    (h : analizar_consulta consulta = Decision.ejecutar herr cc) : herr ≠ none := by
  unfold analizar_consulta at h
  by_cases hp : puede_responder_directamente consulta
  · rw [if_pos hp] at h
    cases h
    have hany := hp
    unfold puede_responder_directamente at hany
    rcases List.any_eq_true.mp hany with ⟨p, hpmem, hpin⟩
    rcases cobertura_patrones p hpmem with ⟨q, hqmem, hqin⟩
    have hin : pyIn q (lowerStr consulta) = true := pyIn_of_pyIn_of_pyIn hqin hpin
    have := identificar_isSome_de_frase hqmem hin
    intro hnone
    rw [hnone] at this
    simp at this
  · rw [if_neg hp] at h
    cases h

/-- C10 witness: the execute decision for `who am i` carries the
resolved builtin name. -/
theorem decision_ejecutar_resuelta_witness :
    analizar_consulta "who am i" =
      Decision.ejecutar (some "get_current_user_info") "who am i" ∧
    (some "get_current_user_info" : Option String) ≠ none :=
  ⟨by decide, decision_ejecutar_resuelta "who am i" "who am i"
    (some "get_current_user_info") (by decide)⟩

/-! ## C6 — retire is a failing no-op on builtins and unknown names -/

/-- C6: in any state reachable under the orchestrator's registration
discipline, `remover_herramienta_generada` on a builtin name — or on
any name absent from the live mapping — returns `False` and leaves the
whole state (live, builtin and synthesized mappings) unchanged. -/
theorem retirar_builtin_o_desconocida_noop {s : EjState} (h : ReachableNC s)
    (nombre : String)
    (hn : dHas herramientas_base_init nombre = true ∨ dGet s.herramientas nombre = none) :
    remover_herramienta_generada s nombre = (s, false) := by
  have hInv := reachableNC_invEj h
  have hg : dHas s.herramientas_generadas nombre = false := by
    cases hgb : dHas s.herramientas_generadas nombre
    · rfl
    · exfalso
      rcases hn with hb | hu
      · have hfalse := hInv.sin_choque nombre hgb
        rw [hfalse] at hb
        exact Bool.noConfusion hb
      · have hu' := hInv.union nombre
        rw [dHas] at hgb
        cases hf : dGet s.herramientas_generadas nombre with
        | none => rw [hf] at hgb; simp at hgb
        | some f =>
          rw [hf] at hu'
          simp only [] at hu'
          rw [hu] at hu'
          exact Option.noConfusion hu'
  simp [remover_herramienta_generada, hg]

/-- C6 witness: retiring the builtin `reset_system` from the fresh
invoker fails and changes nothing. -/
theorem retirar_builtin_o_desconocida_noop_witness :
    remover_herramienta_generada ejecutorInit "reset_system" = (ejecutorInit, false) :=
  retirar_builtin_o_desconocida_noop ReachableNC.init "reset_system" (Or.inl (by decide))

/-! ## C8 — invoking an unknown name enumerates the known tools -/

/-- C8: for a name absent from the live mapping, `ejecutar_herramienta`
returns the not-found failure whose available-tools list is exactly the
live mapping's key list, and under the registration discipline that
list contains every builtin name. -/
theorem invocar_desconocida_enumera {s : EjState} (h : ReachableNC s)
    (run : Func → Except String String) (nombre : String)
    (hu : dGet s.herramientas nombre = none) :
    ejecutar_herramienta run s nombre =
      .errNoEncontrada ("Herramienta \x27" ++ nombre ++ "\x27 no encontrada")
        (dKeys s.herramientas) ∧
    (ejecutar_herramienta run s nombre).esError = true ∧
    ∀ b, dHas herramientas_base_init b = true → b ∈ dKeys s.herramientas := by
  have hInv := reachableNC_invEj h
  refine ⟨by simp [ejecutar_herramienta, hu],
    by simp [ejecutar_herramienta, hu, EjResultado.esError], ?_⟩
  intro b hb
  have hu' := hInv.union b
  cases hgb : dGet s.herramientas_generadas b with
  | some f =>
    rw [hgb] at hu'
    simp only [] at hu'
    exact mem_dKeys_of_dGet_some hu'
  | none =>
    rw [hgb] at hu'
    simp only [] at hu'
    rw [hInv.base_fija] at hu'
    rw [dHas] at hb
    cases hf : dGet herramientas_base_init b with
    | none => rw [hf] at hb; simp at hb
    | some v =>
      rw [hf] at hu'
      exact mem_dKeys_of_dGet_some hu'

/-- C8 witness: invoking the unknown name `nope` on the fresh invoker
returns the enumerating not-found failure, and the builtin
`get_current_user_info` is in the enumerated list. -/
theorem invocar_desconocida_enumera_witness :
    ejecutar_herramienta (fun _ => .ok "") ejecutorInit "nope" =
      .errNoEncontrada "Herramienta \x27nope\x27 no encontrada"
        (dKeys ejecutorInit.herramientas) ∧
    "get_current_user_info" ∈ dKeys ejecutorInit.herramientas :=
  ⟨(invocar_desconocida_enumera ReachableNC.init (fun _ => .ok "") "nope" (by decide)).1,
    (invocar_desconocida_enumera ReachableNC.init (fun _ => .ok "") "nope" (by decide)).2.2
      "get_current_user_info" (by decide)⟩

/-! ## C2 — the invoker's union invariant and builtin protection -/

/-- A synthesized callable used for concrete states. -/
def fGen : Func := .generada (.wrapper "def get_x(): ..." "consulta")

/-- The state after registering a synthesized callable *under a builtin
name* — a call `agregar_herramienta_generada` accepts without any
guard. -/
def ejChoque1 : EjState :=
  (agregar_herramienta_generada ejecutorInit "get_current_user_info" fGen).1

/-- ... and after retiring that name again. -/
def ejChoque2 : EjState :=
  (remover_herramienta_generada ejChoque1 "get_current_user_info").1

/-- C2 counterexample: `agregar_herramienta_generada` has no builtin
guard — registering under the builtin name `get_current_user_info`
replaces the builtin's live callable; and after the subsequent retire,
the reachable state `ejChoque2` no longer satisfies
`live = builtins ∪ synthesized` (the builtin has vanished from the live
mapping). -/
theorem invoker_union_counterexample :
    dGet ejChoque1.herramientas "get_current_user_info" = some fGen ∧
    dGet ejChoque1.herramientas_base "get_current_user_info" =
      some (.base "get_current_user_info") ∧
    fGen ≠ Func.base "get_current_user_info" ∧
    Reachable ejChoque2 ∧
    ¬ UnionPuntual ejChoque2 := by
  refine ⟨by decide, by decide, by decide, ?_, ?_⟩
  · exact Reachable.remover _ _ (Reachable.agregar _ _ _ Reachable.init)
  · intro hU
    have hc := hU "get_current_user_info"
    revert hc
    decide

/-- C2 amended: in every state reachable when
`agregar_herramienta_generada` is only given non-builtin names (as the
hash-suffixed generated names guarantee), the live mapping equals
builtins ∪ synthesized pointwise, and the builtins' live callables are
never replaced; without that restriction, register overwrites the
builtin's live entry, as the counterexample shows. -/
theorem invoker_union_sin_colision {s : EjState} (h : ReachableNC s) :
    UnionPuntual s ∧
    ∀ b, dHas herramientas_base_init b = true →
      dGet s.herramientas b = dGet herramientas_base_init b := by
  have hInv := reachableNC_invEj h
  refine ⟨hInv.union, ?_⟩
  intro b hb
  have hu' := hInv.union b
  cases hgb : dGet s.herramientas_generadas b with
  | some f =>
    exfalso
    have hfalse := hInv.sin_choque b (by rw [dHas, hgb]; rfl)
    rw [hfalse] at hb
    exact Bool.noConfusion hb
  | none =>
    rw [hgb] at hu'
    simp only [] at hu'
    rw [hInv.base_fija] at hu'
    exact hu'

/-- C2 witness: after registering a properly hash-suffixed synthesized
name, the builtin `get_current_user_info` still maps to its original
callable. -/
theorem invoker_union_sin_colision_witness :
    dGet (agregar_herramienta_generada ejecutorInit "get_x_ab12cd34" fGen).1.herramientas
        "get_current_user_info"
      = dGet herramientas_base_init "get_current_user_info" :=
  (invoker_union_sin_colision
      (ReachableNC.agregar _ "get_x_ab12cd34" fGen ReachableNC.init (by decide))).2
    "get_current_user_info" (by decide)

/-! ## C4 — retiring all synthesized capabilities -/

/-- A state with the synthesized capability `get_x_ab12cd34` registered
in the invoker. -/
def ejGen1 : EjState :=
  (agregar_herramienta_generada ejecutorInit "get_x_ab12cd34" fGen).1

/-- The catalog after registering the same capability. -/
def regGen1 : RegState :=
  (registrar_herramienta false ⟨[], []⟩ none "get_x_ab12cd34" mdEjemplo "t0").2.1

/-- C4 counterexample: `reset_herramientas_generadas` alone returns the
*count* `1` — not the list of removed capabilities — and it never
touches the Catalog: the registry still holds `get_x_ab12cd34` and a
subsequent `listar_herramientas` still includes it. -/
theorem retirar_todo_counterexample :
    (reset_herramientas_generadas ejGen1).2 = 1 ∧
    dGet (reset_herramientas_generadas ejGen1).1.herramientas "get_x_ab12cd34" = none ∧
    dGet regGen1.herramientas_registradas "get_x_ab12cd34"
      = some (entradaNueva mdEjemplo "t0") ∧
    dGet (listar_herramientas regGen1 none).herramientas "get_x_ab12cd34"
      = some (entradaNueva mdEjemplo "t0") := by
  refine ⟨rfl, by decide, by decide, by decide⟩

/-- C4 amended: the Invoker-level reset removes every synthesized
capability from the live mapping and returns the *count* removed; the
Catalog entry disappears only through the orchestrator-level
`reset_sistema`, which additionally clears the registry, after which
`listar_herramientas` excludes everything. -/
theorem reset_sistema_retira_todo {ej : EjState} (h : ReachableNC ej) (reg : RegState)
    (disk : Option Documento) (co : CoordState) :
    (reset_sistema ej reg disk co).1.herramientas_generadas = [] ∧
    (∀ n, dHas ej.herramientas_generadas n = true →
      dGet (reset_sistema ej reg disk co).1.herramientas n = none) ∧
    (reset_sistema ej reg disk co).2.2.2.2 = (dKeys ej.herramientas_generadas).length ∧
    (listar_herramientas (reset_sistema ej reg disk co).2.1 none).herramientas = [] ∧
    (reset_sistema ej reg disk co).2.2.1 = none := by
  have hInv := reachableNC_invEj h
  obtain ⟨_, h2, h3⟩ := fold_remover_spec (dKeys ej.herramientas_generadas) ej hInv rfl
  refine ⟨h2, ?_, rfl, rfl, rfl⟩
  intro n hn
  rw [dHas] at hn
  cases hf : dGet ej.herramientas_generadas n with
  | none => rw [hf] at hn; simp at hn
  | some v => exact h3 n (mem_dKeys_of_dGet_some hf)

/-- C4 witness: for the concrete state holding `get_x_ab12cd34` in both
Invoker and Catalog, the orchestrator reset empties the synthesized
mapping, drops the name from the live mapping, reports the count `1`,
and the subsequent catalog listing is empty. -/
theorem reset_sistema_retira_todo_witness :
    (reset_sistema ejGen1 regGen1 none ⟨["get_x_ab12cd34"], []⟩).1.herramientas_generadas
      = [] ∧
    dGet (reset_sistema ejGen1 regGen1 none
        ⟨["get_x_ab12cd34"], []⟩).1.herramientas "get_x_ab12cd34" = none ∧
    (reset_sistema ejGen1 regGen1 none ⟨["get_x_ab12cd34"], []⟩).2.2.2.2
      = (dKeys ejGen1.herramientas_generadas).length ∧
    (listar_herramientas (reset_sistema ejGen1 regGen1 none
        ⟨["get_x_ab12cd34"], []⟩).2.1 none).herramientas = [] := by
  have h := reset_sistema_retira_todo
    (ReachableNC.agregar _ "get_x_ab12cd34" fGen ReachableNC.init (by decide))
    regGen1 none ⟨["get_x_ab12cd34"], []⟩
  exact ⟨h.1, h.2.1 "get_x_ab12cd34" (by decide), h.2.2.1, h.2.2.2.1⟩

/-! ## C1 — synthesis never fails? -/

/-- An exec environment that always yields an empty namespace. -/
def envEjemplo : EntornoExec := ⟨fun _ => some []⟩

/-- C1 counterexample: three provider/configuration behaviors under
which `generar_herramienta` returns an error result instead of a
fallback callable — (a) the provider replies text with no extractable
code (an extraction failure is *not* absorbed by the fallback), (b) the
provider raises and the category is `ldap_query`, where the fallback
template itself raises `NameError` (its f-string interpolates the
out-of-scope `resultado`), (c) the API key is unconfigured. -/
theorem sintesis_counterexample :
    generar_herramienta ⟨false, "hola"⟩ envEjemplo (some "k")
        "cuantos departamentos existen" "ldap_query"
      = .err "No se pudo generar código para la consulta" ∧
    generar_herramienta ⟨true, ""⟩ envEjemplo (some "k")
        "cuantos departamentos existen" "ldap_query"
      = .err "Error en generación: name \x27resultado\x27 is not defined" ∧
    generar_herramienta ⟨true, ""⟩ envEjemplo none
        "cuantos departamentos existen" "generic_query"
      = .err "API key de Gemini no configurada" := by
  refine ⟨by decide, by decide, by decide⟩

/-- The generic fallback template text is never the empty string. -/
theorem template_generic_ne_vacio (c : String) : ¬ template_generic_fallback c = "" := by
  intro h
  have hd := congrArg String.data h
  rw [template_generic_fallback] at hd
  rw [String.data_append, String.data_append] at hd
  rcases List.append_eq_nil.mp hd with ⟨hd1, _⟩
  rcases List.append_eq_nil.mp hd1 with ⟨hp, _⟩
  exact absurd hp (by decide)

/-- A derived capability name is never the empty string. -/
theorem nombre_ne_vacio (c : String) : ¬ generar_nombre_herramienta c = "" := by
  intro h
  have hd := congrArg String.data h
  rw [generar_nombre_herramienta] at hd
  simp only [String.data_append] at hd
  rcases List.append_eq_nil.mp hd with ⟨hd1, _⟩
  rcases List.append_eq_nil.mp hd1 with ⟨hd2, _⟩
  rcases List.append_eq_nil.mp hd2 with ⟨hp, _⟩
  exact absurd hp (by decide)

/-- C1 amended: when the provider call raises (unreachable, timeout, …),
the API key is configured, the category is not `ldap_query` (whose
fallback template construction raises `NameError`), and compiling the
generic fallback source succeeds — as the hand-written template does —
`generar_herramienta` returns a non-error result with a usable callable
and a non-empty derived name.  API-key absence, extraction failure and
compilation failure, by contrast, surface as error results. -/
theorem sintesis_fallback_generico (ia : ProveedorIA) (env : EntornoExec)
    (k consulta tipo : String) (hk : ¬ k = "") (hfalla : ia.falla = true)
    (htipo : ¬ tipo = "ldap_query") (ns : List (String × NsVal))
    (hexec : env.resultado (template_generic_fallback consulta) = some ns) :
    ∃ f : Callable,
      generar_herramienta ia env (some k) consulta tipo =
        .ok (generar_nombre_herramienta consulta) f (template_generic_fallback consulta)
          tipo consulta ∧
      ¬ generar_nombre_herramienta consulta = "" ∧
      (generar_herramienta ia env (some k) consulta tipo).esError = false := by
  have hgci : generar_codigo_con_ia ia consulta tipo =
      .ok (some (template_generic_fallback consulta)) := by
    simp [generar_codigo_con_ia, hfalla, usar_template_fallback, htipo]
  have hcf : ∃ f, crear_funcion_dinamica env (template_generic_fallback consulta) consulta
      = some f := by
    cases hfind : ns.find? fun e => esCallable e.2 && e.1.startsWith "get_" with
    | none =>
      refine ⟨.wrapper (template_generic_fallback consulta) consulta, ?_⟩
      unfold crear_funcion_dinamica
      rw [hexec]
      simp [hfind]
    | some e =>
      obtain ⟨n, v⟩ := e
      cases v with
      | funcionPy i =>
        refine ⟨.delNamespace n i, ?_⟩
        unfold crear_funcion_dinamica
        rw [hexec]
        simp [hfind]
      | otro =>
        refine ⟨.wrapper (template_generic_fallback consulta) consulta, ?_⟩
        unfold crear_funcion_dinamica
        rw [hexec]
        simp [hfind]
  obtain ⟨f, hf⟩ := hcf
  have hEq : generar_herramienta ia env (some k) consulta tipo =
      .ok (generar_nombre_herramienta consulta) f (template_generic_fallback consulta)
        tipo consulta := by
    simp [generar_herramienta, hgci, hf, hk, template_generic_ne_vacio consulta]
  exact ⟨f, hEq, nombre_ne_vacio consulta, by rw [hEq]; rfl⟩

/-- C1 witness: with the provider raising, a configured key and a
generic-category request, synthesis degrades to the fallback and
returns a usable callable with a non-empty name. -/
theorem sintesis_fallback_generico_witness :
    ∃ f : Callable,
      generar_herramienta ⟨true, ""⟩ envEjemplo (some "k") "hola" "generic_query" =
        .ok (generar_nombre_herramienta "hola") f (template_generic_fallback "hola")
          "generic_query" "hola" ∧
      ¬ generar_nombre_herramienta "hola" = "" ∧
      (generar_herramienta ⟨true, ""⟩ envEjemplo (some "k") "hola" "generic_query").esError
        = false :=
  sintesis_fallback_generico ⟨true, ""⟩ envEjemplo "k" "hola" "generic_query"
    (by decide) rfl (by decide) [] rfl

end AgentesAI
